import Mathlib

/-!
# Verification of `src/tools/brazilian_league_mapper.py`

Shallow embedding of the stat-transformation engine, roster selector,
name encoder and retrieval backends of the Brazilian Serie A → ISSD
(SNES) player-data mapper.  Python floats are modelled as rationals
(`ℚ`), Python ints as `ℤ`, strings as `List Char`, dictionaries as
`Option`-valued lookup functions.
-/

namespace BLM

/-- Python `"needle" in hay`: contiguous substring test on character lists. -/
def isSub : List Char → List Char → Bool
  | n, [] => n.isEmpty
  | n, h :: t => n.isPrefixOf (h :: t) || isSub n t

/-- Python `int(x)` on a real value: truncation toward zero, on `ℚ`.
`Int.tdiv` is T-division (truncation toward zero) and a rational is stored
in lowest terms, so `num.tdiv den` is exactly `int(q)`. -/
def ratTrunc (q : ℚ) : ℤ := q.num.tdiv q.den

/-- `clamp(val, lo=0, hi=9)` from the source (all call sites use the
default bounds): `max(0, min(9, int(val)))`. -/
def clamp (val : ℚ) : ℤ := max 0 (min 9 (ratTrunc val))

/-- `scale(value, src_min, src_max)` from the source: linear map to
[0, 1] clamped at both ends, `0.5` when the range is degenerate. -/
def scale (value src_min src_max : ℚ) : ℚ :=
  if src_max ≤ src_min then 1/2
  else max 0 (min 1 ((value - src_min) / (src_max - src_min)))

/-- `REQUEST_DELAY = 6` (fbref rate limit: one request per 6 seconds). -/
def REQUEST_DELAY : ℕ := 6

/-- `PLAYERS_PER_TEAM = 20`. -/
def PLAYERS_PER_TEAM : ℕ := 20

/-- `NAME_WIDTH = 8`. -/
def NAME_WIDTH : ℕ := 8

/-- Position byte constants (`POS_GK`/`POS_DF`/`POS_MF`/`POS_FW`). -/
def POS_GK : ℕ := 0x00
def POS_DF : ℕ := 0x04
def POS_MF : ℕ := 0x08
def POS_FW : ℕ := 0x0D

/-- One row of the standard-stats table (`scrape_standard_stats`). -/
structure RawPlayer where
  name : List Char
  position : List Char
  age : List Char
  games : ℤ
  games_starts : ℤ
  minutes : ℤ
  goals : ℤ
  assists : ℤ
  xg : ℚ
  xg_assist : ℚ
  progressive_carries : ℤ
  progressive_passes : ℤ
  yellow_cards : ℤ
  red_cards : ℤ
  deriving DecidableEq, Repr

/-- One row of the shooting table (`scrape_shooting`). -/
structure ShootRec where
  shots_on_target : ℤ
  shots_total : ℤ
  avg_shot_distance : ℚ
  deriving DecidableEq, Repr

/-- One row of the passing table (`scrape_passing`). -/
structure PassRec where
  pass_completion_pct : ℚ
  progressive_passes : ℤ
  passes_completed : ℤ
  deriving DecidableEq, Repr

/-- One row of the defense table (`scrape_defense`). -/
structure DefRec where
  tackles : ℤ
  interceptions : ℤ
  blocks : ℤ
  tackles_won : ℤ
  deriving DecidableEq, Repr

/-- One row of the possession table (`scrape_possession`). -/
structure PossRec where
  touches : ℤ
  dribbles_completed : ℤ
  dribbles_attempted : ℤ
  carries : ℤ
  progressive_carries : ℤ
  deriving DecidableEq, Repr

/-- One row of the keeper table (`scrape_keeper`). -/
structure KeepRec where
  saves : ℤ
  save_pct : ℚ
  clean_sheets : ℤ
  deriving DecidableEq, Repr

/-- Python `d.get(name, {})` followed by `{}.get(field, default)`:
read a field of an optional record with a default. -/
def dget {β α : Type} (o : Option β) (f : β → α) (d : α) : α :=
  match o with
  | some r => f r
  | none => d

/-- `(a & 0xF) << 4 | (b & 0xF)`: pack two attributes into one byte,
first in the high nibble.  The attributes come out of `clamp`, hence
are nonnegative, so `Int.toNat` is exact. -/
def packByte (a b : ℤ) : ℕ :=
  ((a.toNat &&& 0xF) <<< 4) ||| (b.toNat &&& 0xF)

/-- The result record of `compute_issd_stats`. -/
structure IssdStats where
  pos_byte : ℕ
  bytes : List ℕ
  speed : ℤ
  kick_power : ℤ
  dribbling : ℤ
  heading : ℤ
  stamina : ℤ
  defense : ℤ
  passing : ℤ
  aggression : ℤ
  deriving DecidableEq, Repr

/-- `compute_issd_stats(player, shoot, passing, defense, poss, keeper)`:
converts scraped fbref stats into the ISSD attributes (0-9 each) and
the 8-byte packed representation.  The five table dictionaries are
modelled as `Option`-valued lookups keyed by player name. -/
def compute_issd_stats (player : RawPlayer)
    (shootT : List Char → Option ShootRec)
    (passT : List Char → Option PassRec)
    (defT : List Char → Option DefRec)
    (possT : List Char → Option PossRec)
    (keepT : List Char → Option KeepRec) : IssdStats :=
  let pos_str := player.position.map Char.toUpper
  let minutes : ℤ := max player.minutes 1
  let games : ℤ := max player.games 1
  let per90 : ℚ := (minutes : ℚ) / 90
  let shoot_d := shootT player.name
  let pass_d := passT player.name
  let def_d := defT player.name
  let poss_d := possT player.name
  let keep_d := keepT player.name
  let is_gk := isSub ['G', 'K'] pos_str
  let is_df := isSub ['D', 'F'] pos_str
  let is_fw := isSub ['F', 'W'] pos_str
  -- Position byte
  let pos_byte : ℕ :=
    if is_gk then POS_GK else if is_df then POS_DF
    else if is_fw then POS_FW else POS_MF
  -- SPEED
  let carries : ℤ := dget poss_d (·.carries) 0
  let carries_p90 : ℚ := if 0 < per90 then (carries : ℚ) / per90 else 0
  let speed_raw : ℚ := scale carries_p90 5 55 * 7 + 2
  let speed_raw : ℚ := if is_fw then speed_raw + 1 else speed_raw
  let speed_raw : ℚ := if is_gk then max 2 (speed_raw - 3) else speed_raw
  let speed := clamp speed_raw
  -- KICK POWER
  let goals : ℤ := player.goals
  let xg : ℚ := player.xg
  let sot : ℤ := dget shoot_d (·.shots_on_target) 0
  let kp_raw : ℚ :=
    (scale (goals : ℚ) 0 15 * (40/100) + scale xg 0 12 * (30/100)
      + scale (sot : ℚ) 0 40 * (30/100)) * 8 + 1
  let kp_raw : ℚ :=
    if is_gk then 3 else if is_df then max 2 (kp_raw - 1) else kp_raw
  let kick_power := clamp kp_raw
  -- DRIBBLING
  let drib_won : ℤ := dget poss_d (·.dribbles_completed) 0
  let drib_att : ℤ := dget poss_d (·.dribbles_attempted) 0
  let drib_pct : ℚ :=
    if 0 < drib_att then (drib_won : ℚ) / (drib_att : ℚ) * 100 else 50
  let drib_raw : ℚ :=
    (scale (drib_won : ℚ) 0 60 * (6/10) + scale drib_pct 30 80 * (4/10)) * 8 + 1
  let drib_raw : ℚ := if is_gk then 2 else drib_raw
  let dribbling := clamp drib_raw
  -- HEADING
  let heading_base : ℚ :=
    if is_df then 6 else if is_fw then 5 else if is_gk then 3 else 4
  let heading := clamp (heading_base + (goals : ℚ) * (12/100))
  -- STAMINA
  let min_per_game : ℚ :=
    if 0 < games then (minutes : ℚ) / (games : ℚ) else 45
  let stam_raw : ℚ := scale min_per_game 20 90 * 7 + 2
  let stamina := clamp stam_raw
  -- DEFENSE
  let tkl : ℤ := dget def_d (·.tackles) 0
  let ints : ℤ := dget def_d (·.interceptions) 0
  let blk : ℤ := dget def_d (·.blocks) 0
  let def_total : ℤ := tkl + ints + blk
  let def_raw : ℚ := scale (def_total : ℚ) 0 90 * 7 + 2
  let def_raw : ℚ :=
    if is_gk then
      scale (dget keep_d (·.save_pct) 65) 55 85 * 5
        + scale ((dget keep_d (·.clean_sheets) 0 : ℤ) : ℚ) 0 15 * 3 + 2
    else if is_fw then max 1 (def_raw - 2)
    else if is_df then min 9 (def_raw + 1)
    else def_raw
  let defense_stat := clamp def_raw
  -- PASSING
  let pass_pct : ℚ := dget pass_d (·.pass_completion_pct) 70
  let prog_pass : ℤ := dget pass_d (·.progressive_passes) 0
  let assists : ℤ := player.assists
  let pass_raw : ℚ :=
    (scale pass_pct 55 92 * (4/10) + scale (prog_pass : ℚ) 0 80 * (3/10)
      + scale (assists : ℚ) 0 10 * (3/10)) * 8 + 1
  let pass_raw : ℚ := if is_gk then max 2 (pass_raw - 2) else pass_raw
  let passing_stat := clamp pass_raw
  -- AGGRESSION
  let yc : ℤ := player.yellow_cards
  let rc : ℤ := player.red_cards
  let agg_raw : ℤ :=
    min 9 (ratTrunc ((yc : ℚ) * (6/10) + (rc : ℚ) * (5/2)) + 2)
  let aggression := clamp (agg_raw : ℚ)
  -- Pack into 8 bytes
  let byte1 := packByte speed kick_power
  let byte2 := packByte dribbling heading
  let byte3 := packByte stamina defense_stat
  let byte4 := packByte passing_stat aggression
  { pos_byte := pos_byte
    bytes := [pos_byte, byte1, byte2, byte3, byte4, 0x00, 0x00, 0x00]
    speed := speed
    kick_power := kick_power
    dribbling := dribbling
    heading := heading
    stamina := stamina
    defense := defense_stat
    passing := passing_stat
    aggression := aggression }

/-- `ACCENT_MAP`: accented characters and their ASCII replacements, in
source (insertion) order.  Values are strings (`ß` maps to "ss"). -/
def ACCENT_MAP : List (Char × List Char) :=
  [('á', ['a']), ('à', ['a']), ('ã', ['a']), ('â', ['a']), ('ä', ['a']), ('å', ['a']),
   ('é', ['e']), ('è', ['e']), ('ê', ['e']), ('ë', ['e']),
   ('í', ['i']), ('ì', ['i']), ('î', ['i']), ('ï', ['i']),
   ('ó', ['o']), ('ò', ['o']), ('õ', ['o']), ('ô', ['o']), ('ö', ['o']),
   ('ú', ['u']), ('ù', ['u']), ('û', ['u']), ('ü', ['u']),
   ('ý', ['y']), ('ÿ', ['y']),
   ('ñ', ['n']), ('ç', ['c']),
   ('Á', ['A']), ('À', ['A']), ('Ã', ['A']), ('Â', ['A']), ('Ä', ['A']), ('Å', ['A']),
   ('É', ['E']), ('È', ['E']), ('Ê', ['E']), ('Ë', ['E']),
   ('Í', ['I']), ('Ì', ['I']), ('Î', ['I']), ('Ï', ['I']),
   ('Ó', ['O']), ('Ò', ['O']), ('Õ', ['O']), ('Ô', ['O']), ('Ö', ['O']),
   ('Ú', ['U']), ('Ù', ['U']), ('Û', ['U']), ('Ü', ['U']),
   ('Ý', ['Y']), ('Ñ', ['N']), ('Ç', ['C']),
   ('ø', ['o']), ('Ø', ['O']), ('ß', ['s', 's']),
   ('ğ', ['g']), ('Ğ', ['G']), ('ş', ['s']), ('Ş', ['S']),
   ('ı', ['i']), ('İ', ['I'])]

/-- `TALL_MENU_TEXT_ENCODING`: character → SNES tile index table. -/
def TALL_MENU_TEXT_ENCODING : List (Char × ℕ) :=
  [(' ', 0x00),
   ('!', 0x52), ('.', 0x54), ('+', 0x56), ('-', 0x57),
   ('%', 0x58), ('/', 0x59), ('\'', 0x5A), ('~', 0x5B),
   (':', 0x5C), ('?', 0x5D),
   ('0', 0x5E), ('1', 0x5F), ('2', 0x60), ('3', 0x61),
   ('4', 0x62), ('5', 0x63), ('6', 0x64), ('7', 0x65),
   ('8', 0x66), ('9', 0x67),
   ('A', 0x68), ('B', 0x69), ('C', 0x6A), ('D', 0x6B),
   ('E', 0x6C), ('F', 0x6D), ('G', 0x6E), ('H', 0x6F),
   ('I', 0x70), ('J', 0x71), ('K', 0x72), ('L', 0x73),
   ('M', 0x74), ('N', 0x75), ('O', 0x76), ('P', 0x77),
   ('Q', 0x78), ('R', 0x79), ('S', 0x7A), ('T', 0x7B),
   ('U', 0x7C), ('V', 0x7D), ('W', 0x7E), ('X', 0x7F),
   ('Y', 0x80), ('Z', 0x81),
   ('a', 0x82), ('b', 0x83), ('c', 0x84), ('d', 0x85),
   ('e', 0x86), ('f', 0x87), ('g', 0x88), ('h', 0x89),
   ('i', 0x8A), ('j', 0x8B), ('k', 0x8C), ('l', 0x8D),
   ('m', 0x8E), ('n', 0x8F), ('o', 0x90), ('p', 0x91),
   ('q', 0x92), ('r', 0x93), ('s', 0x94), ('t', 0x95),
   ('u', 0x96), ('v', 0x97), ('w', 0x98), ('x', 0x99),
   ('y', 0x9A), ('z', 0x9B)]

/-- Python `c in TALL_MENU_TEXT_ENCODING`: key membership. -/
def inTable (c : Char) : Bool :=
  (TALL_MENU_TEXT_ENCODING.map Prod.fst).contains c

/-- One `text.replace(src, dst)` where `src` is a single character. -/
def replaceChar (src : Char) (dst : List Char) (text : List Char) : List Char :=
  text.flatMap fun c => if c = src then dst else [c]

/-- `strip_accents(text)`: sequentially apply every replacement of
`ACCENT_MAP` in insertion order. -/
def strip_accents (text : List Char) : List Char :=
  ACCENT_MAP.foldl (fun t sd => replaceChar sd.1 sd.2 t) text

/-- Whitespace for Python `str.strip()` / `str.split()`. -/
def isWs (c : Char) : Bool :=
  c == ' ' || c == '\t' || c == '\n' || c == '\r' || c == '\x0b' || c == '\x0c'

/-- Python `s.strip()`: drop whitespace at both ends. -/
def pyStrip (s : List Char) : List Char :=
  ((s.dropWhile isWs).reverse.dropWhile isWs).reverse

/-- Accumulator worker for `pySplit` (accumulates the current token
reversed). -/
def pySplitAux : List Char → List Char → List (List Char)
  | [], acc => if acc.isEmpty then [] else [acc.reverse]
  | c :: rest, acc =>
    if isWs c then
      if acc.isEmpty then pySplitAux rest []
      else acc.reverse :: pySplitAux rest []
    else pySplitAux rest (c :: acc)

/-- Python `s.split()`: split on whitespace runs, no empty tokens. -/
def pySplit (s : List Char) : List (List Char) := pySplitAux s []

/-- The cleaning prefix of `format_name_8char`: strip, substitute
accents, keep only characters present in the encoding table. -/
def cleanedName (full_name : List Char) : List Char :=
  (strip_accents (pyStrip full_name)).filter inTable

/-- The linking-word particles skipped when choosing the name token. -/
def skipWords : List (List Char) :=
  [['d', 'a'], ['d', 'e'], ['d', 'o'], ['d', 'o', 's'], ['d', 'a', 's'],
   ['e'], ['d', 'i']]

/-- `significant = [p for p in parts if p.lower() not in skip]`, falling
back to all tokens when the filter leaves none. -/
def significantTokens (parts : List (List Char)) : List (List Char) :=
  let significant := parts.filter fun p => !(skipWords.contains (p.map Char.toLower))
  if significant.isEmpty then parts else significant

/-- The representative-token choice of `format_name_8char`: the sole
significant token; else the last one when its length fits; else the
abbreviation `first[0] + "." + last[:NAME_WIDTH-2]`. -/
def chooseRep (significant : List (List Char)) : List Char :=
  if significant.length = 1 then significant.headD []
  else if (significant.getLastD []).length ≤ NAME_WIDTH then significant.getLastD []
  else (significant.headD []).headD ' ' :: '.' ::
         (significant.getLastD []).take (NAME_WIDTH - 2)

/-- Center-padding with blanks to `NAME_WIDTH`, odd remainder on the
right. -/
def centerPad (chosen : List Char) : List Char :=
  let pad_total := NAME_WIDTH - chosen.length
  let pad_left := pad_total / 2
  let pad_right := pad_total - pad_left
  List.replicate pad_left ' ' ++ chosen ++ List.replicate pad_right ' '

/-- `format_name_8char(full_name)`: the ISSD 8-character padded name. -/
def format_name_8char (full_name : List Char) : List Char :=
  match pySplit (cleanedName full_name) with
  | [] => "Unknown ".toList
  | parts@(_ :: _) =>
    centerPad ((chooseRep (significantTokens parts)).take NAME_WIDTH)

/-- Stable insertion into a stably-sorted list: the new element goes in
front of the first element it compares `le` to, so elements comparing
equal keep their original relative order. -/
def insertStable {α : Type} (le : α → α → Bool) (x : α) : List α → List α
  | [] => [x]
  | y :: ys => if le x y then x :: y :: ys else y :: insertStable le x ys

/-- Model of Python's stable `sorted`/`list.sort`: a stable sort is
extensionally determined by the comparator, so stable insertion sort
computes exactly what Timsort returns. -/
def stableSort {α : Type} (le : α → α → Bool) : List α → List α
  | [] => []
  | x :: xs => insertStable le x (stableSort le xs)

/-- `"TAG" in p.get("position", "").upper()`: position-bucket
membership by substring match on the uppercased tag. -/
def hasTag (tag : List Char) (p : RawPlayer) : Bool :=
  isSub tag (p.position.map Char.toUpper)

def gkTag : List Char := ['G', 'K']
def dfTag : List Char := ['D', 'F']
def mfTag : List Char := ['M', 'F']
def fwTag : List Char := ['F', 'W']

/-- The fill loop of `select_roster`: walk the minutes-sorted pool and
append players whose name is not yet used, until the roster holds
`PLAYERS_PER_TEAM` entries. -/
def fillLoop : List RawPlayer → List RawPlayer → List (List Char) → List RawPlayer
  | [], roster, _ => roster
  | p :: rest, roster, used =>
    if PLAYERS_PER_TEAM ≤ roster.length then roster
    else if p.name ∈ used then fillLoop rest roster used
    else fillLoop rest (roster ++ [p]) (p.name :: used)

/-- `pos_key`: first matching tag in the fixed order GK, DF, MF, FW
wins; unmatched positions count as MF (2). -/
def pos_key (p : RawPlayer) : ℕ :=
  if hasTag gkTag p then 0 else if hasTag dfTag p then 1
  else if hasTag mfTag p then 2 else if hasTag fwTag p then 3 else 2

/-- `select_roster(players)`: sort by minutes descending (stable),
take the top 2 GK / 6 DF / 7 MF / 5 FW by substring bucket match, fill
remaining slots from the sorted pool skipping used names, stable-sort
by position precedence, and cap at 20. -/
def select_roster (players : List RawPlayer) : List RawPlayer :=
  let by_minutes := stableSort (fun p q => decide (q.minutes ≤ p.minutes)) players
  let gk := by_minutes.filter (hasTag gkTag)
  let df := by_minutes.filter (hasTag dfTag)
  let mf := by_minutes.filter (hasTag mfTag)
  let fw := by_minutes.filter (hasTag fwTag)
  let roster := gk.take 2 ++ df.take 6 ++ mf.take 7 ++ fw.take 5
  let roster := fillLoop by_minutes roster (roster.map (·.name))
  (stableSort (fun p q => decide (pos_key p ≤ pos_key q)) roster).take PLAYERS_PER_TEAM

/-- Number of position buckets whose tag matches the player. -/
def tagCount (p : RawPlayer) : ℕ :=
  (if hasTag gkTag p then 1 else 0) + (if hasTag dfTag p then 1 else 0) +
  (if hasTag mfTag p then 1 else 0) + (if hasTag fwTag p then 1 else 0)

/-- A minimal player record with the given name and position tag and
all numeric statistics zero. -/
def mkP (n : Char) (pos : List Char) : RawPlayer :=
  { name := [n], position := pos, age := [], games := 0, games_starts := 0,
    minutes := 0, goals := 0, assists := 0, xg := 0, xg_assist := 0,
    progressive_carries := 0, progressive_passes := 0, yellow_cards := 0,
    red_cards := 0 }

/-- A 20-player pool meeting every positional quota exactly. -/
def quotaPool : List RawPlayer :=
  [mkP 'A' ['G', 'K'], mkP 'B' ['G', 'K'],
   mkP 'C' ['D', 'F'], mkP 'D' ['D', 'F'], mkP 'E' ['D', 'F'],
   mkP 'F' ['D', 'F'], mkP 'G' ['D', 'F'], mkP 'H' ['D', 'F'],
   mkP 'I' ['M', 'F'], mkP 'J' ['M', 'F'], mkP 'K' ['M', 'F'],
   mkP 'L' ['M', 'F'], mkP 'M' ['M', 'F'], mkP 'N' ['M', 'F'],
   mkP 'O' ['M', 'F'],
   mkP 'P' ['F', 'W'], mkP 'Q' ['F', 'W'], mkP 'R' ['F', 'W'],
   mkP 'S' ['F', 'W'], mkP 'T' ['F', 'W']]

/-- An HTTP response as seen by one attempt: a status code with body
text, or a transport exception. -/
inductive Resp where
  | http (status : ℕ) (text : List Char)
  | exc
  deriving DecidableEq, Repr

/-- What one Selenium attempt can observe: an exception at `get`, or
the rendered page source (`first` at the first read, `second` at the
re-read after the extra challenge wait). -/
inductive SelResp where
  | exc
  | page (first : List Char) (second : List Char)
  deriving DecidableEq, Repr

/-- Observable timed events of a fetch: one HTTP GET attempt, or a
`time.sleep` of the given number of seconds. -/
inductive Ev where
  | get
  | sleep (n : ℕ)
  deriving DecidableEq, Repr

/-- One loop iteration of `_fetch_with_cloudscraper`: status 200
sleeps the cooldown and returns the text; 429 backs off
`60 * (attempt + 1)`; 403 backs off `REQUEST_DELAY * 3`; any other
status or an exception backs off `REQUEST_DELAY * 2`. -/
def cloudAttempt (attempt : ℕ) (r : Resp) : List Ev × Option (List Char) :=
  match r with
  | .http 200 t => ([.get, .sleep REQUEST_DELAY], some t)
  | .http 429 _ => ([.get, .sleep (60 * (attempt + 1))], none)
  | .http 403 _ => ([.get, .sleep (REQUEST_DELAY * 3)], none)
  | .http _ _ => ([.get, .sleep (REQUEST_DELAY * 2)], none)
  | .exc => ([.get, .sleep (REQUEST_DELAY * 2)], none)

/-- One loop iteration of `_fetch_with_selenium`: load, wait 3, read
the page, wait 8 more and re-read when a challenge page is detected;
a page above 1000 units sleeps the cooldown and is returned, a smaller
one backs off `REQUEST_DELAY * 2`; an exception backs off the same. -/
def seleniumAttempt (_attempt : ℕ) (r : SelResp) : List Ev × Option (List Char) :=
  match r with
  | .exc => ([.get, .sleep (REQUEST_DELAY * 2)], none)
  | .page p1 p2 =>
    let challenged := isSub "Just a moment".toList p1 ||
      isSub "Checking your browser".toList p1
    let page := if challenged then p2 else p1
    let evs := if challenged then [Ev.get, .sleep 3, .sleep 8] else [Ev.get, .sleep 3]
    if 1000 < page.length then (evs ++ [.sleep REQUEST_DELAY], some page)
    else (evs ++ [.sleep (REQUEST_DELAY * 2)], none)

/-- One loop iteration of `_fetch_with_requests`: status 200 sleeps the
cooldown and returns; 429 backs off `60 * (attempt + 1)`; every other
status (403 included) and any exception backs off `REQUEST_DELAY * 2`. -/
def requestsAttempt (attempt : ℕ) (r : Resp) : List Ev × Option (List Char) :=
  match r with
  | .http 200 t => ([.get, .sleep REQUEST_DELAY], some t)
  | .http 429 _ => ([.get, .sleep (60 * (attempt + 1))], none)
  | .http _ _ => ([.get, .sleep (REQUEST_DELAY * 2)], none)
  | .exc => ([.get, .sleep (REQUEST_DELAY * 2)], none)

/-- The `for attempt in range(retries)` retry loop shared by the three
backends: run attempts from index `i` while fuel lasts, accumulating
the event trace; `none` once the budget is exhausted. -/
def runFetch {ρ : Type} (step : ℕ → ρ → List Ev × Option (List Char))
    (responses : ℕ → ρ) : ℕ → ℕ → List Ev × Option (List Char)
  | _, 0 => ([], none)
  | i, fuel + 1 =>
    match step i (responses i) with
    | (evs, some t) => (evs, some t)
    | (evs, none) =>
      let rest := runFetch step responses (i + 1) fuel
      (evs ++ rest.1, rest.2)

/-- `_fetch_with_cloudscraper(url, retries=3)` over a response stream. -/
def fetch_with_cloudscraper (responses : ℕ → Resp) (retries : ℕ := 3) :
    List Ev × Option (List Char) :=
  runFetch cloudAttempt responses 0 retries

/-- `_fetch_with_selenium(url, retries=3)` over a response stream. -/
def fetch_with_selenium (responses : ℕ → SelResp) (retries : ℕ := 3) :
    List Ev × Option (List Char) :=
  runFetch seleniumAttempt responses 0 retries

/-- `_fetch_with_requests(url, retries=3)` over a response stream. -/
def fetch_with_requests (responses : ℕ → Resp) (retries : ℕ := 3) :
    List Ev × Option (List Char) :=
  runFetch requestsAttempt responses 0 retries

/-- Number of GET attempts in a trace. -/
def countGet (tr : List Ev) : ℕ :=
  tr.countP fun e => match e with
    | .get => true
    | _ => false

lemma clamp_nonneg (q : ℚ) : 0 ≤ clamp q := le_max_left 0 _

lemma clamp_le_nine (q : ℚ) : clamp q ≤ 9 :=
  max_le (by norm_num) (min_le_left 9 _)

/-- C1: For every raw player record and every combination of present or
absent supplementary records, each of the 8 derived attribute values
(speed, kick power, dribbling, heading, stamina, defense, passing,
aggression) returned by `compute_issd_stats` is an integer in the
closed range [0, 9]. -/
theorem issd_stats_in_range (player : RawPlayer)
    (shootT : List Char → Option ShootRec)
    (passT : List Char → Option PassRec)
    (defT : List Char → Option DefRec)
    (possT : List Char → Option PossRec)
    (keepT : List Char → Option KeepRec) :
    let r := compute_issd_stats player shootT passT defT possT keepT
    (0 ≤ r.speed ∧ r.speed ≤ 9) ∧
    (0 ≤ r.kick_power ∧ r.kick_power ≤ 9) ∧
    (0 ≤ r.dribbling ∧ r.dribbling ≤ 9) ∧
    (0 ≤ r.heading ∧ r.heading ≤ 9) ∧
    (0 ≤ r.stamina ∧ r.stamina ≤ 9) ∧
    (0 ≤ r.defense ∧ r.defense ≤ 9) ∧
    (0 ≤ r.passing ∧ r.passing ≤ 9) ∧
    (0 ≤ r.aggression ∧ r.aggression ≤ 9) := by
  refine ⟨⟨?_, ?_⟩, ⟨?_, ?_⟩, ⟨?_, ?_⟩, ⟨?_, ?_⟩,
    ⟨?_, ?_⟩, ⟨?_, ?_⟩, ⟨?_, ?_⟩, ⟨?_, ?_⟩⟩ <;>
    first
      | exact clamp_nonneg _
      | exact clamp_le_nine _

/-- C4: `scale(value, lo, hi)` returns exactly 0 when `value ≤ lo`
(with `lo < hi`), exactly 1 when `value ≥ hi` (with `lo < hi`), and
exactly 1/2 whenever `hi ≤ lo`. -/
theorem scale_endpoints (value lo hi : ℚ) :
    (lo < hi → value ≤ lo → scale value lo hi = 0) ∧
    (lo < hi → hi ≤ value → scale value lo hi = 1) ∧
    (hi ≤ lo → scale value lo hi = 1/2) := by
  refine ⟨?_, ?_, ?_⟩
  · intro hlt hle
    have hne : ¬ hi ≤ lo := not_le.mpr hlt
    rw [scale, if_neg hne]
    have hpos : 0 < hi - lo := sub_pos.mpr hlt
    have hnonpos : (value - lo) / (hi - lo) ≤ 0 :=
      div_nonpos_iff.mpr (Or.inr ⟨sub_nonpos.mpr hle, le_of_lt hpos⟩)
    rw [min_eq_right (le_trans hnonpos (by norm_num)), max_eq_left hnonpos]
  · intro hlt hge
    have hne : ¬ hi ≤ lo := not_le.mpr hlt
    rw [scale, if_neg hne]
    have hpos : 0 < hi - lo := sub_pos.mpr hlt
    have hone : 1 ≤ (value - lo) / (hi - lo) :=
      (one_le_div hpos).mpr (by linarith)
    rw [min_eq_left hone, max_eq_right (by norm_num : (0:ℚ) ≤ 1)]
  · intro hle
    rw [scale, if_pos hle]

/-- Witness for C4 at concrete inputs. -/
theorem scale_endpoints_w :
    scale 0 0 1 = 0 ∧ scale 2 0 1 = 1 ∧ scale 0 1 0 = 1/2 :=
  ⟨(scale_endpoints 0 0 1).1 (by norm_num) le_rfl,
   ((scale_endpoints 2 0 1).2).1 (by norm_num) (by norm_num),
   ((scale_endpoints 0 1 0).2).2 (by norm_num)⟩

/-- C5: the packed attribute record is exactly 8 bytes, in the fixed
order [position][speed|kick power][dribbling|heading][stamina|defense]
[passing|aggression] followed by three zero bytes, each listed pair
packed with the first attribute in the high nibble; and packing
speed = 7 with kick power = 3 yields the byte 0x73. -/
theorem issd_stats_packing (player : RawPlayer)
    (shootT : List Char → Option ShootRec)
    (passT : List Char → Option PassRec)
    (defT : List Char → Option DefRec)
    (possT : List Char → Option PossRec)
    (keepT : List Char → Option KeepRec) :
    let r := compute_issd_stats player shootT passT defT possT keepT
    r.bytes = [r.pos_byte,
               packByte r.speed r.kick_power,
               packByte r.dribbling r.heading,
               packByte r.stamina r.defense,
               packByte r.passing r.aggression,
               0x00, 0x00, 0x00] ∧
    packByte 7 3 = 0x73 :=
  ⟨rfl, by decide⟩

/-- C9: for a player record whose appearance count (`games`) is zero,
the stamina attribute is computed with the appearance count defaulted
to the minimal baseline of one game (the divisor is 1), never by a
division by zero. -/
theorem stamina_zero_games (player : RawPlayer)
    (shootT : List Char → Option ShootRec)
    (passT : List Char → Option PassRec)
    (defT : List Char → Option DefRec)
    (possT : List Char → Option PossRec)
    (keepT : List Char → Option KeepRec)
    (h : player.games = 0) :
    (compute_issd_stats player shootT passT defT possT keepT).stamina =
      clamp (scale ((max player.minutes 1 : ℤ) : ℚ) 20 90 * 7 + 2) := by
  show clamp (scale
      (if 0 < max player.games 1
        then ((max player.minutes 1 : ℤ) : ℚ) / ((max player.games 1 : ℤ) : ℚ)
        else 45) 20 90 * 7 + 2) = _
  rw [h]
  norm_num

/-- Witness for C9: a record with zero appearances. -/
theorem stamina_zero_games_w :
    (compute_issd_stats
      { name := ['A'], position := ['F', 'W'], age := [], games := 0,
        games_starts := 0, minutes := 0, goals := 0, assists := 0,
        xg := 0, xg_assist := 0, progressive_carries := 0,
        progressive_passes := 0, yellow_cards := 0, red_cards := 0 }
      (fun _ => none) (fun _ => none) (fun _ => none)
      (fun _ => none) (fun _ => none)).stamina =
      clamp (scale ((max (0 : ℤ) 1 : ℤ) : ℚ) 20 90 * 7 + 2) :=
  stamina_zero_games _ _ _ _ _ _ rfl

lemma significantTokens_sub (parts : List (List Char)) :
    ∀ t ∈ significantTokens parts, t ∈ parts := by
  intro t ht
  simp only [significantTokens] at ht
  split at ht
  · exact ht
  · exact List.mem_of_mem_filter ht

lemma pySplitAux_chars : ∀ (s acc t : List Char), t ∈ pySplitAux s acc →
    ∀ c ∈ t, c ∈ s ∨ c ∈ acc := by
  intro s
  induction s with
  | nil =>
    intro acc t ht c hc
    unfold pySplitAux at ht
    split_ifs at ht
    · simp at ht
    · rw [List.mem_singleton] at ht
      subst ht
      exact Or.inr (List.mem_reverse.mp hc)
  | cons a s ih =>
    intro acc t ht c hc
    unfold pySplitAux at ht
    split_ifs at ht with hws hacc
    · rcases ih [] t ht c hc with h | h
      · exact Or.inl (List.mem_cons_of_mem a h)
      · simp at h
    · rcases List.mem_cons.mp ht with rfl | ht'
      · exact Or.inr (List.mem_reverse.mp hc)
      · rcases ih [] t ht' c hc with h | h
        · exact Or.inl (List.mem_cons_of_mem a h)
        · simp at h
    · rcases ih (a :: acc) t ht c hc with h | h
      · exact Or.inl (List.mem_cons_of_mem a h)
      · rcases List.mem_cons.mp h with rfl | h'
        · exact Or.inl (List.mem_cons_self _ _)
        · exact Or.inr h'

lemma pySplit_chars (s t : List Char) (ht : t ∈ pySplit s) :
    ∀ c ∈ t, c ∈ s := by
  intro c hc
  rcases pySplitAux_chars s [] t ht c hc with h | h
  · exact h
  · simp at h

lemma chooseRep_chars (sig : List (List Char)) :
    ∀ c ∈ chooseRep sig, (∃ t ∈ sig, c ∈ t) ∨ c = '.' ∨ c = ' ' := by
  intro c hc
  unfold chooseRep at hc
  split_ifs at hc
  · cases sig with
    | nil => simp at hc
    | cons a l => exact Or.inl ⟨a, List.mem_cons_self a l, hc⟩
  · cases sig with
    | nil => simp at hc
    | cons a l =>
      rw [List.getLastD_cons] at hc
      exact Or.inl ⟨_, List.getLastD_mem_cons l a, hc⟩
  · rcases List.mem_cons.mp hc with rfl | hc1
    · cases sig with
      | nil => exact Or.inr (Or.inr rfl)
      | cons a l =>
        cases a with
        | nil => exact Or.inr (Or.inr rfl)
        | cons x xs =>
          exact Or.inl ⟨x :: xs, List.mem_cons_self _ _, List.mem_cons_self _ _⟩
    · rcases List.mem_cons.mp hc1 with rfl | hc2
      · exact Or.inr (Or.inl rfl)
      · have hcl := List.mem_of_mem_take hc2
        cases sig with
        | nil => simp at hcl
        | cons a l =>
          rw [List.getLastD_cons] at hcl
          exact Or.inl ⟨_, List.getLastD_mem_cons l a, hcl⟩

lemma centerPad_length (chosen : List Char) (h : chosen.length ≤ NAME_WIDTH) :
    (centerPad chosen).length = NAME_WIDTH := by
  unfold NAME_WIDTH at h
  unfold centerPad NAME_WIDTH
  simp only [List.length_append, List.length_replicate]
  omega

lemma centerPad_chars (chosen : List Char) :
    ∀ c ∈ centerPad chosen, c ∈ chosen ∨ c = ' ' := by
  intro c hc
  unfold centerPad at hc
  rcases List.mem_append.mp hc with h | h
  · rcases List.mem_append.mp h with h' | h'
    · exact Or.inr (List.eq_of_mem_replicate h')
    · exact Or.inl h'
  · exact Or.inr (List.eq_of_mem_replicate h)

/-- C3: for every input name, the output of `format_name_8char` has
length exactly 8 and every character of the output belongs to the
`TALL_MENU_TEXT_ENCODING` alphabet. -/
theorem name_len8_alphabet (name : List Char) :
    (format_name_8char name).length = 8 ∧
    ∀ c ∈ format_name_8char name, inTable c = true := by
  unfold format_name_8char
  cases hp : pySplit (cleanedName name) with
  | nil => exact ⟨rfl, by decide⟩
  | cons a l =>
    refine ⟨?_, ?_⟩
    · exact centerPad_length _ (List.length_take_le NAME_WIDTH _)
    · intro c hc
      rcases centerPad_chars _ c hc with h | rfl
      · have h1 := List.mem_of_mem_take h
        rcases chooseRep_chars _ c h1 with ⟨t, htm, hct⟩ | rfl | rfl
        · have ht2 : t ∈ pySplit (cleanedName name) := by
            rw [hp]
            exact significantTokens_sub _ t htm
          have hc2 : c ∈ (strip_accents (pyStrip name)).filter inTable :=
            pySplit_chars _ t ht2 c hct
          exact List.of_mem_filter hc2
        · decide
        · decide
      · decide

set_option maxRecDepth 20000 in
/-- C6: with a non-empty token list, the representative token is the
sole significant token if exactly one remains, else the last significant
token verbatim when its length is at most 8, else the abbreviation
built from the first character of the first token, a `'.'` separator
and a prefix of the last token; in particular
"Neymar da Silva Santos Junior" encodes to " Junior " and
"Gabriel Barbosa" encodes to "Barbosa ". -/
theorem representative_token (name : List Char)
    (hp : pySplit (cleanedName name) ≠ []) :
    format_name_8char name =
      centerPad ((chooseRep (significantTokens
        (pySplit (cleanedName name)))).take NAME_WIDTH) ∧
    (∀ sig : List (List Char),
      (sig.length = 1 → chooseRep sig = sig.headD []) ∧
      (1 < sig.length → (sig.getLastD []).length ≤ NAME_WIDTH →
        chooseRep sig = sig.getLastD []) ∧
      (1 < sig.length → NAME_WIDTH < (sig.getLastD []).length →
        chooseRep sig = (sig.headD []).headD ' ' :: '.' ::
          (sig.getLastD []).take (NAME_WIDTH - 2))) ∧
    format_name_8char "Neymar da Silva Santos Junior".toList = " Junior ".toList ∧
    format_name_8char "Gabriel Barbosa".toList = "Barbosa ".toList := by
  refine ⟨?_, ?_, by decide, by decide⟩
  · unfold format_name_8char
    cases hps : pySplit (cleanedName name) with
    | nil => exact absurd hps hp
    | cons a l => rfl
  · intro sig
    refine ⟨?_, ?_, ?_⟩
    · intro h1
      unfold chooseRep
      rw [if_pos h1]
    · intro h1 h2
      unfold chooseRep
      rw [if_neg (by omega), if_pos h2]
    · intro h1 h2
      unfold chooseRep
      rw [if_neg (by omega), if_neg (not_le.mpr h2)]

set_option maxRecDepth 20000 in
/-- Witness for C6 at the concrete input "Gabriel Barbosa". -/
theorem representative_token_w :
    format_name_8char "Gabriel Barbosa".toList =
      centerPad ((chooseRep (significantTokens
        (pySplit (cleanedName "Gabriel Barbosa".toList)))).take NAME_WIDTH) :=
  (representative_token "Gabriel Barbosa".toList (by decide)).1

/-- C10: when no character of the input survives accent substitution
and alphabet filtering, the encoder returns the fixed 8-character
placeholder "Unknown " instead of failing or returning an empty
result. -/
theorem unknown_placeholder (name : List Char) (h : cleanedName name = []) :
    format_name_8char name = "Unknown ".toList := by
  unfold format_name_8char
  rw [h]
  rfl

set_option maxRecDepth 20000 in
/-- Witness for C10: an input with no representable character. -/
theorem unknown_placeholder_w :
    format_name_8char ['€', '€'] = "Unknown ".toList :=
  unknown_placeholder ['€', '€'] (by decide)

lemma insertStable_perm {α : Type} (le : α → α → Bool) (x : α) :
    ∀ l : List α, List.Perm (insertStable le x l) (x :: l) := by
  intro l
  induction l with
  | nil => exact List.Perm.refl _
  | cons y ys ih =>
    unfold insertStable
    split_ifs
    · exact List.Perm.refl _
    · exact (List.Perm.cons y ih).trans (List.Perm.swap x y ys)

lemma stableSort_perm {α : Type} (le : α → α → Bool) :
    ∀ l : List α, List.Perm (stableSort le l) l := by
  intro l
  induction l with
  | nil => exact List.Perm.refl _
  | cons x xs ih => exact (insertStable_perm le x _).trans (List.Perm.cons x ih)

lemma fillLoop_full : ∀ (pool roster : List RawPlayer) (used : List (List Char)),
    PLAYERS_PER_TEAM ≤ roster.length → fillLoop pool roster used = roster
  | [], _, _, _ => rfl
  | p :: rest, roster, used, h => by
    unfold fillLoop
    rw [if_pos h]

lemma fillLoop_sub : ∀ (pool roster : List RawPlayer) (used : List (List Char))
    (x : RawPlayer), x ∈ fillLoop pool roster used → x ∈ roster ∨ x ∈ pool := by
  intro pool
  induction pool with
  | nil => exact fun roster used x hx => Or.inl hx
  | cons p rest ih =>
    intro roster used x hx
    unfold fillLoop at hx
    split_ifs at hx with h1 h2
    · exact Or.inl hx
    · rcases ih roster used x hx with h | h
      · exact Or.inl h
      · exact Or.inr (List.mem_cons_of_mem p h)
    · rcases ih (roster ++ [p]) (p.name :: used) x hx with h | h
      · rcases List.mem_append.mp h with h' | h'
        · exact Or.inl h'
        · exact Or.inr (List.mem_cons.mpr (Or.inl (List.mem_singleton.mp h')))
      · exact Or.inr (List.mem_cons_of_mem p h)

lemma fillLoop_nodup : ∀ (pool roster : List RawPlayer) (used : List (List Char)),
    roster.Nodup → (∀ q ∈ roster, q.name ∈ used) →
    (fillLoop pool roster used).Nodup := by
  intro pool
  induction pool with
  | nil => exact fun roster used h _ => h
  | cons p rest ih =>
    intro roster used hnd hused
    unfold fillLoop
    split_ifs with h1 h2
    · exact hnd
    · exact ih roster used hnd hused
    · apply ih
      · rw [List.nodup_append]
        refine ⟨hnd, List.nodup_singleton p, ?_⟩
        intro x hx hxp
        rw [List.mem_singleton] at hxp
        subst hxp
        exact h2 (hused x hx)
      · intro q hq
        rcases List.mem_append.mp hq with h' | h'
        · exact List.mem_cons_of_mem _ (hused q h')
        · rw [List.mem_singleton] at h'
          subst h'
          exact List.mem_cons_self _ _

lemma tag_unique (p : RawPlayer) (h : tagCount p ≤ 1) :
    (hasTag gkTag p = true →
      hasTag dfTag p = false ∧ hasTag mfTag p = false ∧ hasTag fwTag p = false) ∧
    (hasTag dfTag p = true →
      hasTag gkTag p = false ∧ hasTag mfTag p = false ∧ hasTag fwTag p = false) ∧
    (hasTag mfTag p = true →
      hasTag gkTag p = false ∧ hasTag dfTag p = false ∧ hasTag fwTag p = false) ∧
    (hasTag fwTag p = true →
      hasTag gkTag p = false ∧ hasTag dfTag p = false ∧ hasTag mfTag p = false) := by
  unfold tagCount at h
  cases hg : hasTag gkTag p <;> cases hd : hasTag dfTag p <;>
    cases hm : hasTag mfTag p <;> cases hf : hasTag fwTag p <;>
    rw [hg, hd, hm, hf] at h <;> simp_all

lemma disjoint_of_excl {l₁ l₂ : List RawPlayer} {g : RawPlayer → Bool}
    (h1 : ∀ x ∈ l₁, g x = false) (h2 : ∀ x ∈ l₂, g x = true) :
    List.Disjoint l₁ l₂ := by
  intro x hx1 hx2
  have hf := h1 x hx1
  rw [h2 x hx2] at hf
  cases hf

lemma filter_take_all_length {l : List RawPlayer} {f : RawPlayer → Bool}
    (hall : ∀ x ∈ l, f x = true) (n : ℕ) (h : n ≤ l.length) :
    ((l.take n).filter f).length = n := by
  rw [List.filter_eq_self.mpr fun a ha => hall a (List.mem_of_mem_take ha)]
  rw [List.length_take]
  omega

lemma filter_take_none_length {l : List RawPlayer} {f : RawPlayer → Bool}
    (hnone : ∀ x ∈ l, f x = false) (n : ℕ) :
    ((l.take n).filter f).length = 0 := by
  rw [List.length_eq_zero, List.filter_eq_nil_iff]
  intro a ha hfa
  have := hnone a (List.mem_of_mem_take ha)
  rw [hfa] at this
  cases this

lemma select_roster_quota_eq (pool : List RawPlayer)
    (hgk : 2 ≤ ((stableSort (fun p q => decide (q.minutes ≤ p.minutes)) pool).filter
      (hasTag gkTag)).length)
    (hdf : 6 ≤ ((stableSort (fun p q => decide (q.minutes ≤ p.minutes)) pool).filter
      (hasTag dfTag)).length)
    (hmf : 7 ≤ ((stableSort (fun p q => decide (q.minutes ≤ p.minutes)) pool).filter
      (hasTag mfTag)).length)
    (hfw : 5 ≤ ((stableSort (fun p q => decide (q.minutes ≤ p.minutes)) pool).filter
      (hasTag fwTag)).length) :
    select_roster pool = stableSort (fun p q => decide (pos_key p ≤ pos_key q))
      (((stableSort (fun p q => decide (q.minutes ≤ p.minutes)) pool).filter
          (hasTag gkTag)).take 2 ++
       ((stableSort (fun p q => decide (q.minutes ≤ p.minutes)) pool).filter
          (hasTag dfTag)).take 6 ++
       ((stableSort (fun p q => decide (q.minutes ≤ p.minutes)) pool).filter
          (hasTag mfTag)).take 7 ++
       ((stableSort (fun p q => decide (q.minutes ≤ p.minutes)) pool).filter
          (hasTag fwTag)).take 5) := by
  have hlen : (((stableSort (fun p q => decide (q.minutes ≤ p.minutes)) pool).filter
          (hasTag gkTag)).take 2 ++
       ((stableSort (fun p q => decide (q.minutes ≤ p.minutes)) pool).filter
          (hasTag dfTag)).take 6 ++
       ((stableSort (fun p q => decide (q.minutes ≤ p.minutes)) pool).filter
          (hasTag mfTag)).take 7 ++
       ((stableSort (fun p q => decide (q.minutes ≤ p.minutes)) pool).filter
          (hasTag fwTag)).take 5).length = 20 := by
    simp only [List.length_append, List.length_take]
    omega
  have hfull : PLAYERS_PER_TEAM ≤ (((stableSort
          (fun p q => decide (q.minutes ≤ p.minutes)) pool).filter
          (hasTag gkTag)).take 2 ++
       ((stableSort (fun p q => decide (q.minutes ≤ p.minutes)) pool).filter
          (hasTag dfTag)).take 6 ++
       ((stableSort (fun p q => decide (q.minutes ≤ p.minutes)) pool).filter
          (hasTag mfTag)).take 7 ++
       ((stableSort (fun p q => decide (q.minutes ≤ p.minutes)) pool).filter
          (hasTag fwTag)).take 5).length := by
    rw [hlen]
    decide
  simp only [select_roster]
  rw [fillLoop_full _ _ _ hfull]
  apply List.take_of_length_le
  rw [(stableSort_perm _ _).length_eq, hlen]
  decide

/-- C2 counterexample: for the one-player pool whose position tag
"DF,MF" matches both the DF and the MF bucket, `select_roster` returns
the same record twice, so the "no duplicates" part of the claim is
false as stated. -/
theorem select_roster_cex :
    select_roster [mkP 'A' ['D', 'F', ',', 'M', 'F']] =
      [mkP 'A' ['D', 'F', ',', 'M', 'F'], mkP 'A' ['D', 'F', ',', 'M', 'F']] ∧
    ¬ (select_roster [mkP 'A' ['D', 'F', ',', 'M', 'F']]).Nodup := by
  refine ⟨by decide, by decide⟩

/-- C2 (amended): `select_roster` always returns at most 20 entries
drawn from the input pool; when every player's position tag matches at
most one bucket, the positional counts equal the quotas 2/6/7/5
whenever every bucket holds at least its quota, and (for a
duplicate-free pool) the result has no duplicates.  Without the
single-bucket restriction a player can be selected once per matching
bucket (see the counterexample). -/
theorem select_roster_spec :
    (∀ pool : List RawPlayer,
      (select_roster pool).length ≤ PLAYERS_PER_TEAM ∧
      ∀ p ∈ select_roster pool, p ∈ pool) ∧
    (∀ pool : List RawPlayer, (∀ p ∈ pool, tagCount p ≤ 1) →
      2 ≤ (pool.filter (hasTag gkTag)).length →
      6 ≤ (pool.filter (hasTag dfTag)).length →
      7 ≤ (pool.filter (hasTag mfTag)).length →
      5 ≤ (pool.filter (hasTag fwTag)).length →
      (select_roster pool).length = PLAYERS_PER_TEAM ∧
      ((select_roster pool).filter (hasTag gkTag)).length = 2 ∧
      ((select_roster pool).filter (hasTag dfTag)).length = 6 ∧
      ((select_roster pool).filter (hasTag mfTag)).length = 7 ∧
      ((select_roster pool).filter (hasTag fwTag)).length = 5) ∧
    (∀ pool : List RawPlayer, pool.Nodup → (∀ p ∈ pool, tagCount p ≤ 1) →
      (select_roster pool).Nodup) := by
  refine ⟨?_, ?_, ?_⟩
  · -- length bound and subset, unconditionally
    intro pool
    constructor
    · exact List.length_take_le _ _
    · intro p hp
      simp only [select_roster] at hp
      have hp2 := List.mem_of_mem_take hp
      have hp3 := (stableSort_perm _ _).subset hp2
      have hS : ∀ x ∈ stableSort (fun p q => decide (q.minutes ≤ p.minutes)) pool,
          x ∈ pool := fun x hx => (stableSort_perm _ _).subset hx
      rcases fillLoop_sub _ _ _ p hp3 with h | h
      · simp only [List.mem_append] at h
        rcases h with ((h | h) | h) | h <;>
          exact hS _ (List.mem_of_mem_filter (List.mem_of_mem_take h))
      · exact hS _ h
  · -- quota counts
    intro pool hdisj hgk hdf hmf hfw
    have hperm := stableSort_perm (fun p q => decide (q.minutes ≤ p.minutes)) pool
    have hS : ∀ x ∈ stableSort (fun p q => decide (q.minutes ≤ p.minutes)) pool,
        x ∈ pool := fun x hx => hperm.subset hx
    have hgk' : 2 ≤ ((stableSort (fun p q => decide (q.minutes ≤ p.minutes)) pool).filter
        (hasTag gkTag)).length := by
      rw [(hperm.filter _).length_eq]
      exact hgk
    have hdf' : 6 ≤ ((stableSort (fun p q => decide (q.minutes ≤ p.minutes)) pool).filter
        (hasTag dfTag)).length := by
      rw [(hperm.filter _).length_eq]
      exact hdf
    have hmf' : 7 ≤ ((stableSort (fun p q => decide (q.minutes ≤ p.minutes)) pool).filter
        (hasTag mfTag)).length := by
      rw [(hperm.filter _).length_eq]
      exact hmf
    have hfw' : 5 ≤ ((stableSort (fun p q => decide (q.minutes ≤ p.minutes)) pool).filter
        (hasTag fwTag)).length := by
      rw [(hperm.filter _).length_eq]
      exact hfw
    rw [select_roster_quota_eq pool hgk' hdf' hmf' hfw']
    have hperm2 := stableSort_perm (fun p q => decide (pos_key p ≤ pos_key q))
      (((stableSort (fun p q => decide (q.minutes ≤ p.minutes)) pool).filter
          (hasTag gkTag)).take 2 ++
       ((stableSort (fun p q => decide (q.minutes ≤ p.minutes)) pool).filter
          (hasTag dfTag)).take 6 ++
       ((stableSort (fun p q => decide (q.minutes ≤ p.minutes)) pool).filter
          (hasTag mfTag)).take 7 ++
       ((stableSort (fun p q => decide (q.minutes ≤ p.minutes)) pool).filter
          (hasTag fwTag)).take 5)
    -- exclusion facts on the four bucket lists
    have hexgk : ∀ x ∈ (stableSort (fun p q => decide (q.minutes ≤ p.minutes)) pool).filter
        (hasTag gkTag), hasTag gkTag x = true :=
      fun x hx => List.of_mem_filter hx
    have hexdf : ∀ x ∈ (stableSort (fun p q => decide (q.minutes ≤ p.minutes)) pool).filter
        (hasTag dfTag), hasTag dfTag x = true :=
      fun x hx => List.of_mem_filter hx
    have hexmf : ∀ x ∈ (stableSort (fun p q => decide (q.minutes ≤ p.minutes)) pool).filter
        (hasTag mfTag), hasTag mfTag x = true :=
      fun x hx => List.of_mem_filter hx
    have hexfw : ∀ x ∈ (stableSort (fun p q => decide (q.minutes ≤ p.minutes)) pool).filter
        (hasTag fwTag), hasTag fwTag x = true :=
      fun x hx => List.of_mem_filter hx
    have huniq : ∀ x ∈ stableSort (fun p q => decide (q.minutes ≤ p.minutes)) pool,
        tagCount x ≤ 1 := fun x hx => hdisj x (hS x hx)
    have hgk_df : ∀ x ∈ (stableSort (fun p q => decide (q.minutes ≤ p.minutes)) pool).filter
        (hasTag dfTag), hasTag gkTag x = false := fun x hx =>
      ((tag_unique x (huniq x (List.mem_of_mem_filter hx))).2.1 (hexdf x hx)).1
    have hgk_mf : ∀ x ∈ (stableSort (fun p q => decide (q.minutes ≤ p.minutes)) pool).filter
        (hasTag mfTag), hasTag gkTag x = false := fun x hx =>
      ((tag_unique x (huniq x (List.mem_of_mem_filter hx))).2.2.1 (hexmf x hx)).1
    have hgk_fw : ∀ x ∈ (stableSort (fun p q => decide (q.minutes ≤ p.minutes)) pool).filter
        (hasTag fwTag), hasTag gkTag x = false := fun x hx =>
      ((tag_unique x (huniq x (List.mem_of_mem_filter hx))).2.2.2 (hexfw x hx)).1
    have hdf_gk : ∀ x ∈ (stableSort (fun p q => decide (q.minutes ≤ p.minutes)) pool).filter
        (hasTag gkTag), hasTag dfTag x = false := fun x hx =>
      ((tag_unique x (huniq x (List.mem_of_mem_filter hx))).1 (hexgk x hx)).1
    have hdf_mf : ∀ x ∈ (stableSort (fun p q => decide (q.minutes ≤ p.minutes)) pool).filter
        (hasTag mfTag), hasTag dfTag x = false := fun x hx =>
      ((tag_unique x (huniq x (List.mem_of_mem_filter hx))).2.2.1 (hexmf x hx)).2.1
    have hdf_fw : ∀ x ∈ (stableSort (fun p q => decide (q.minutes ≤ p.minutes)) pool).filter
        (hasTag fwTag), hasTag dfTag x = false := fun x hx =>
      ((tag_unique x (huniq x (List.mem_of_mem_filter hx))).2.2.2 (hexfw x hx)).2.1
    have hmf_gk : ∀ x ∈ (stableSort (fun p q => decide (q.minutes ≤ p.minutes)) pool).filter
        (hasTag gkTag), hasTag mfTag x = false := fun x hx =>
      ((tag_unique x (huniq x (List.mem_of_mem_filter hx))).1 (hexgk x hx)).2.1
    have hmf_df : ∀ x ∈ (stableSort (fun p q => decide (q.minutes ≤ p.minutes)) pool).filter
        (hasTag dfTag), hasTag mfTag x = false := fun x hx =>
      ((tag_unique x (huniq x (List.mem_of_mem_filter hx))).2.1 (hexdf x hx)).2.1
    have hmf_fw : ∀ x ∈ (stableSort (fun p q => decide (q.minutes ≤ p.minutes)) pool).filter
        (hasTag fwTag), hasTag mfTag x = false := fun x hx =>
      ((tag_unique x (huniq x (List.mem_of_mem_filter hx))).2.2.2 (hexfw x hx)).2.2
    have hfw_gk : ∀ x ∈ (stableSort (fun p q => decide (q.minutes ≤ p.minutes)) pool).filter
        (hasTag gkTag), hasTag fwTag x = false := fun x hx =>
      ((tag_unique x (huniq x (List.mem_of_mem_filter hx))).1 (hexgk x hx)).2.2
    have hfw_df : ∀ x ∈ (stableSort (fun p q => decide (q.minutes ≤ p.minutes)) pool).filter
        (hasTag dfTag), hasTag fwTag x = false := fun x hx =>
      ((tag_unique x (huniq x (List.mem_of_mem_filter hx))).2.1 (hexdf x hx)).2.2
    have hfw_mf : ∀ x ∈ (stableSort (fun p q => decide (q.minutes ≤ p.minutes)) pool).filter
        (hasTag mfTag), hasTag fwTag x = false := fun x hx =>
      ((tag_unique x (huniq x (List.mem_of_mem_filter hx))).2.2.1 (hexmf x hx)).2.2
    refine ⟨?_, ?_, ?_, ?_, ?_⟩
    · rw [hperm2.length_eq]
      simp only [List.length_append, List.length_take, PLAYERS_PER_TEAM]
      omega
    · rw [(hperm2.filter _).length_eq]
      simp only [List.filter_append, List.length_append]
      rw [filter_take_all_length hexgk 2 hgk',
        filter_take_none_length hgk_df 6,
        filter_take_none_length hgk_mf 7,
        filter_take_none_length hgk_fw 5]
    · rw [(hperm2.filter _).length_eq]
      simp only [List.filter_append, List.length_append]
      rw [filter_take_all_length hexdf 6 hdf',
        filter_take_none_length hdf_gk 2,
        filter_take_none_length hdf_mf 7,
        filter_take_none_length hdf_fw 5]
    · rw [(hperm2.filter _).length_eq]
      simp only [List.filter_append, List.length_append]
      rw [filter_take_all_length hexmf 7 hmf',
        filter_take_none_length hmf_gk 2,
        filter_take_none_length hmf_df 6,
        filter_take_none_length hmf_fw 5]
    · rw [(hperm2.filter _).length_eq]
      simp only [List.filter_append, List.length_append]
      rw [filter_take_all_length hexfw 5 hfw',
        filter_take_none_length hfw_gk 2,
        filter_take_none_length hfw_df 6,
        filter_take_none_length hfw_mf 7]
  · -- no duplicates for a duplicate-free single-bucket pool
    intro pool hnd hdisj
    simp only [select_roster]
    apply List.Nodup.sublist (List.take_sublist _ _)
    rw [(stableSort_perm _ _).nodup_iff]
    have hperm := stableSort_perm (fun p q => decide (q.minutes ≤ p.minutes)) pool
    have hSnd : (stableSort (fun p q => decide (q.minutes ≤ p.minutes)) pool).Nodup :=
      hperm.nodup_iff.mpr hnd
    have huniq : ∀ x ∈ stableSort (fun p q => decide (q.minutes ≤ p.minutes)) pool,
        tagCount x ≤ 1 := fun x hx => hdisj x (hperm.subset hx)
    apply fillLoop_nodup
    · -- the concatenation of the four bucket segments has no duplicates
      have htake : ∀ t : List Char, ∀ n : ℕ,
          (((stableSort (fun p q => decide (q.minutes ≤ p.minutes)) pool).filter
            (hasTag t)).take n).Nodup := fun t n =>
        List.Nodup.sublist (List.take_sublist _ _) (List.Nodup.filter _ hSnd)
      have hmemtag : ∀ t : List Char, ∀ n : ℕ,
          ∀ x ∈ ((stableSort (fun p q => decide (q.minutes ≤ p.minutes)) pool).filter
            (hasTag t)).take n, hasTag t x = true ∧ tagCount x ≤ 1 := by
        intro t n x hx
        have hx2 := List.mem_of_mem_take hx
        exact ⟨List.of_mem_filter hx2, huniq x (List.mem_of_mem_filter hx2)⟩
      rw [List.nodup_append]
      refine ⟨?_, htake fwTag 5, ?_⟩
      · rw [List.nodup_append]
        refine ⟨?_, htake mfTag 7, ?_⟩
        · rw [List.nodup_append]
          refine ⟨htake gkTag 2, htake dfTag 6, ?_⟩
          intro x hx hx2
          have h1 := hmemtag gkTag 2 x hx
          have h2 := hmemtag dfTag 6 x hx2
          have := ((tag_unique x h1.2).1 h1.1).1
          rw [h2.1] at this
          cases this
        · intro x hx hx2
          have h2 := hmemtag mfTag 7 x hx2
          rcases List.mem_append.mp hx with h | h
          · have h1 := hmemtag gkTag 2 x h
            have := ((tag_unique x h1.2).1 h1.1).2.1
            rw [h2.1] at this
            cases this
          · have h1 := hmemtag dfTag 6 x h
            have := ((tag_unique x h1.2).2.1 h1.1).2.1
            rw [h2.1] at this
            cases this
      · intro x hx hx2
        have h2 := hmemtag fwTag 5 x hx2
        rcases List.mem_append.mp hx with h | h
        · rcases List.mem_append.mp h with h' | h'
          · have h1 := hmemtag gkTag 2 x h'
            have := ((tag_unique x h1.2).1 h1.1).2.2
            rw [h2.1] at this
            cases this
          · have h1 := hmemtag dfTag 6 x h'
            have := ((tag_unique x h1.2).2.1 h1.1).2.2
            rw [h2.1] at this
            cases this
        · have h1 := hmemtag mfTag 7 x h
          have := ((tag_unique x h1.2).2.2.1 h1.1).2.2
          rw [h2.1] at this
          cases this
    · intro q hq
      exact List.mem_map_of_mem (·.name) hq

/-- Witness for C2 at a concrete 20-player pool meeting every quota. -/
theorem select_roster_spec_w :
    (select_roster quotaPool).length = PLAYERS_PER_TEAM ∧
    ((select_roster quotaPool).filter (hasTag gkTag)).length = 2 ∧
    (select_roster quotaPool).Nodup := by
  have h := select_roster_spec
  have hq := h.2.1 quotaPool (by decide) (by decide) (by decide) (by decide) (by decide)
  exact ⟨hq.1, hq.2.1, h.2.2 quotaPool (by decide) (by decide)⟩

lemma runFetch_cont {ρ : Type} (step : ℕ → ρ → List Ev × Option (List Char))
    (responses : ℕ → ρ) (i n : ℕ) (evs : List Ev)
    (h : step i (responses i) = (evs, none)) :
    runFetch step responses i (n + 1) =
      (evs ++ (runFetch step responses (i + 1) n).1,
       (runFetch step responses (i + 1) n).2) := by
  conv_lhs => unfold runFetch
  rw [h]

lemma runFetch_done {ρ : Type} (step : ℕ → ρ → List Ev × Option (List Char))
    (responses : ℕ → ρ) (i n : ℕ) (evs : List Ev) (t : List Char)
    (h : step i (responses i) = (evs, some t)) :
    runFetch step responses i (n + 1) = (evs, some t) := by
  unfold runFetch
  rw [h]

lemma runFetch_spec {ρ : Type} (step : ℕ → ρ → List Ev × Option (List Char))
    (h1 : ∀ i r, countGet (step i r).1 ≤ 1)
    (h2 : ∀ i r t, (step i r).2 = some t →
      ∃ pre, (step i r).1 = pre ++ [Ev.sleep REQUEST_DELAY])
    (responses : ℕ → ρ) :
    ∀ fuel i, countGet (runFetch step responses i fuel).1 ≤ fuel ∧
      ∀ t, (runFetch step responses i fuel).2 = some t →
        ∃ pre, (runFetch step responses i fuel).1 =
          pre ++ [Ev.sleep REQUEST_DELAY] := by
  intro fuel
  induction fuel with
  | zero =>
    intro i
    constructor
    · simp [runFetch, countGet]
    · intro t ht
      simp [runFetch] at ht
  | succ n ih =>
    intro i
    rcases hs : step i (responses i) with ⟨evs, res⟩
    cases res with
    | some t =>
      rw [runFetch_done step responses i n evs t hs]
      constructor
      · have ha := h1 i (responses i)
        rw [hs] at ha
        exact le_trans ha (by omega)
      · intro t' _
        have hb := h2 i (responses i) t (by rw [hs])
        rw [hs] at hb
        exact hb
    | none =>
      rw [runFetch_cont step responses i n evs hs]
      constructor
      · have ha := h1 i (responses i)
        rw [hs] at ha
        have hb := (ih (i + 1)).1
        simp only [countGet, List.countP_append] at ha hb ⊢
        omega
      · intro t ht
        rcases (ih (i + 1)).2 t ht with ⟨pre, hpre⟩
        refine ⟨evs ++ pre, ?_⟩
        rw [hpre]
        exact (List.append_assoc evs pre _).symm

lemma cloudAttempt_gets (i : ℕ) (r : Resp) : countGet (cloudAttempt i r).1 = 1 := by
  rcases r with ⟨s, t⟩ | _
  · unfold cloudAttempt
    split <;> rfl
  · rfl

lemma requestsAttempt_gets (i : ℕ) (r : Resp) :
    countGet (requestsAttempt i r).1 = 1 := by
  rcases r with ⟨s, t⟩ | _
  · unfold requestsAttempt
    split <;> rfl
  · rfl

lemma seleniumAttempt_gets (i : ℕ) (r : SelResp) :
    countGet (seleniumAttempt i r).1 = 1 := by
  rcases r with _ | ⟨p1, p2⟩
  · rfl
  · simp only [seleniumAttempt]
    split_ifs <;> rfl

lemma cloudAttempt_success (i : ℕ) (r : Resp) (t : List Char)
    (h : (cloudAttempt i r).2 = some t) :
    ∃ pre, (cloudAttempt i r).1 = pre ++ [Ev.sleep REQUEST_DELAY] := by
  rcases r with ⟨s, b⟩ | _
  · unfold cloudAttempt at h ⊢
    split at h <;> simp_all
    exact ⟨[Ev.get], rfl⟩
  · exact absurd h (by simp [cloudAttempt])

lemma requestsAttempt_success (i : ℕ) (r : Resp) (t : List Char)
    (h : (requestsAttempt i r).2 = some t) :
    ∃ pre, (requestsAttempt i r).1 = pre ++ [Ev.sleep REQUEST_DELAY] := by
  rcases r with ⟨s, b⟩ | _
  · unfold requestsAttempt at h ⊢
    split at h <;> simp_all
    exact ⟨[Ev.get], rfl⟩
  · exact absurd h (by simp [requestsAttempt])

lemma seleniumAttempt_success (i : ℕ) (r : SelResp) (t : List Char)
    (h : (seleniumAttempt i r).2 = some t) :
    ∃ pre, (seleniumAttempt i r).1 = pre ++ [Ev.sleep REQUEST_DELAY] := by
  rcases r with _ | ⟨p1, p2⟩
  · exact absurd h (by simp [seleniumAttempt])
  · simp only [seleniumAttempt] at h ⊢
    split_ifs at h ⊢ <;> first
      | exact ⟨[Ev.get, Ev.sleep 3, Ev.sleep 8], rfl⟩
      | exact ⟨[Ev.get, Ev.sleep 3], rfl⟩

lemma runFetch_one_le {ρ : Type} (step : ℕ → ρ → List Ev × Option (List Char))
    (h1 : ∀ i r, countGet (step i r).1 = 1) (responses : ℕ → ρ)
    (i fuel : ℕ) (hf : 1 ≤ fuel) :
    1 ≤ countGet (runFetch step responses i fuel).1 := by
  cases fuel with
  | zero => omega
  | succ n =>
    rcases hs : step i (responses i) with ⟨evs, res⟩
    have ha := h1 i (responses i)
    rw [hs] at ha
    cases res with
    | some t =>
      rw [runFetch_done step responses i n evs t hs]
      omega
    | none =>
      rw [runFetch_cont step responses i n evs hs]
      simp only [countGet, List.countP_append] at ha ⊢
      omega

/-- C7: each network backend issues at most `retries` GET attempts per
call before giving up (so `fetch_page` can escalate), and whenever a
call returns content, its event trace ends with the mandatory cooldown
sleep of `REQUEST_DELAY` units after the successful attempt. -/
theorem fetch_attempts_cooldown (retries : ℕ) (rc rr : ℕ → Resp)
    (rs : ℕ → SelResp) :
    (countGet (fetch_with_cloudscraper rc retries).1 ≤ retries ∧
      ∀ t, (fetch_with_cloudscraper rc retries).2 = some t →
        ∃ pre, (fetch_with_cloudscraper rc retries).1 =
          pre ++ [Ev.sleep REQUEST_DELAY]) ∧
    (countGet (fetch_with_selenium rs retries).1 ≤ retries ∧
      ∀ t, (fetch_with_selenium rs retries).2 = some t →
        ∃ pre, (fetch_with_selenium rs retries).1 =
          pre ++ [Ev.sleep REQUEST_DELAY]) ∧
    (countGet (fetch_with_requests rr retries).1 ≤ retries ∧
      ∀ t, (fetch_with_requests rr retries).2 = some t →
        ∃ pre, (fetch_with_requests rr retries).1 =
          pre ++ [Ev.sleep REQUEST_DELAY]) :=
  ⟨runFetch_spec cloudAttempt (fun i r => le_of_eq (cloudAttempt_gets i r))
      cloudAttempt_success rc retries 0,
   runFetch_spec seleniumAttempt (fun i r => le_of_eq (seleniumAttempt_gets i r))
      seleniumAttempt_success rs retries 0,
   runFetch_spec requestsAttempt (fun i r => le_of_eq (requestsAttempt_gets i r))
      requestsAttempt_success rr retries 0⟩

/-- Witness for C7: a stream answering 200 at once; the call succeeds
and its trace ends with the cooldown sleep. -/
theorem fetch_attempts_cooldown_w :
    (fetch_with_cloudscraper (fun _ => Resp.http 200 ['x']) 3).2 = some ['x'] ∧
    ∃ pre, (fetch_with_cloudscraper (fun _ => Resp.http 200 ['x']) 3).1 =
      pre ++ [Ev.sleep REQUEST_DELAY] :=
  ⟨by decide,
   (fetch_attempts_cooldown 3 (fun _ => Resp.http 200 ['x'])
      (fun _ => Resp.http 200 ['x']) (fun _ => SelResp.exc)).1.2
     ['x'] (by decide)⟩

/-- C8 counterexample: in the direct requests backend an access-denied
(403) response falls into the generic branch and backs off
`REQUEST_DELAY * 2` = 12 units, not the `3 ×` cooldown = 18 the claim
asserts for every backend. -/
theorem requests_403_backoff_cex :
    requestsAttempt 0 (Resp.http 403 []) =
      ([Ev.get, Ev.sleep (REQUEST_DELAY * 2)], none) ∧
    requestsAttempt 0 (Resp.http 403 []) ≠
      ([Ev.get, Ev.sleep (REQUEST_DELAY * 3)], none) ∧
    REQUEST_DELAY * 2 ≠ REQUEST_DELAY * 3 :=
  ⟨rfl, by decide, by decide⟩

/-- C8 (amended): a rate-limited (429) response backs off exactly
`60 × (attempt + 1)` units in both HTTP backends; an access-denied
(403) response is retried rather than fatal in both, with a backoff of
`3 ×` the cooldown in the challenge-solving backend but `2 ×` the
cooldown (the generic branch) in the direct requests backend. -/
theorem backoff_schedule (attempt : ℕ) (t : List Char) :
    cloudAttempt attempt (Resp.http 429 t) =
      ([Ev.get, Ev.sleep (60 * (attempt + 1))], none) ∧
    cloudAttempt attempt (Resp.http 403 t) =
      ([Ev.get, Ev.sleep (REQUEST_DELAY * 3)], none) ∧
    requestsAttempt attempt (Resp.http 429 t) =
      ([Ev.get, Ev.sleep (60 * (attempt + 1))], none) ∧
    requestsAttempt attempt (Resp.http 403 t) =
      ([Ev.get, Ev.sleep (REQUEST_DELAY * 2)], none) ∧
    (∀ f : ℕ → Resp, f 0 = Resp.http 403 t →
      2 ≤ countGet (fetch_with_cloudscraper f 3).1 ∧
      2 ≤ countGet (fetch_with_requests f 3).1) := by
  refine ⟨rfl, rfl, rfl, rfl, ?_⟩
  intro f hf
  constructor
  · have e0 : cloudAttempt 0 (f 0) =
        ([Ev.get, Ev.sleep (REQUEST_DELAY * 3)], none) := by rw [hf]; rfl
    show 2 ≤ countGet (runFetch cloudAttempt f 0 3).1
    rw [runFetch_cont cloudAttempt f 0 2 _ e0]
    have hone := runFetch_one_le cloudAttempt cloudAttempt_gets f (0 + 1) 2 (by omega)
    have hb : countGet [Ev.get, Ev.sleep (REQUEST_DELAY * 3)] = 1 := rfl
    simp only [countGet, List.countP_append] at hone hb ⊢
    omega
  · have e0 : requestsAttempt 0 (f 0) =
        ([Ev.get, Ev.sleep (REQUEST_DELAY * 2)], none) := by rw [hf]; rfl
    show 2 ≤ countGet (runFetch requestsAttempt f 0 3).1
    rw [runFetch_cont requestsAttempt f 0 2 _ e0]
    have hone := runFetch_one_le requestsAttempt requestsAttempt_gets f (0 + 1) 2 (by omega)
    have hb : countGet [Ev.get, Ev.sleep (REQUEST_DELAY * 2)] = 1 := rfl
    simp only [countGet, List.countP_append] at hone hb ⊢
    omega

/-- Witness for C8: with every response 403, both backends really issue
further attempts (the status is recoverable, not fatal). -/
theorem backoff_schedule_w :
    2 ≤ countGet (fetch_with_cloudscraper (fun _ => Resp.http 403 []) 3).1 ∧
    2 ≤ countGet (fetch_with_requests (fun _ => Resp.http 403 []) 3).1 :=
  (backoff_schedule 0 []).2.2.2.2 (fun _ => Resp.http 403 []) rfl

end BLM
